import Mathlib

set_option maxHeartbeats 1000000

/-!
Shallow embedding of the `survive` durability library (src/lib.rs) and proofs
about its journal framing, crash recovery, mutation path and compaction.

File contents are modelled as byte lists (`List Nat`, each entry one byte);
`serde_cbor` (de)serialization of the caller's data type is a parameter of the
operations, with its error payloads carried as numeric tokens.
-/

namespace SurviveModel

/-- Errors of the library (`enum Error` in src/lib.rs). The payloads of the
underlying `serde_cbor` and `std::io` errors are modelled as numeric tokens. -/
inductive Error where
  | Cbor : Nat → Error
  | Io : Nat → Error
  | UnregisteredMutation : Nat → Error
deriving DecidableEq

/-- Serialization interface of `serde_cbor` at the caller's data type `T` (the
`Survivable` bound `Serialize + DeserializeOwned`): `ser` models
`serde_cbor::to_vec` and `serde_cbor::to_writer`, `deser` models
`serde_cbor::from_slice` and `serde_cbor::from_reader`. Both are fallible. -/
structure Codec (T : Type) where
  ser : T → Except Nat (List Nat)
  deser : List Nat → Except Nat T

/-- The mutation registry, `type MutationTypes<T> = BTreeMap<u32,
Box<Fn(&[u8], &mut T) -> Result<(), Error>>>`, modelled as an association list
from the `u32` id to the decode-and-apply closure built by `Builder::register`.
A closure takes the record payload and the current data and either fails or
returns the updated data (the source applies the mutation in place). -/
abbrev MutationTypes (T : Type) : Type :=
  List (Nat × (List Nat → T → Except Error T))

/-- Registry lookup, `BTreeMap::get` keyed on the mutation id. -/
def lookupType (reg : MutationTypes T) (mutation_id : Nat) :
    Option (List Nat → T → Except Error T) :=
  match reg with
  | [] => none
  | (k, f) :: rest => if k = mutation_id then some f else lookupType rest mutation_id

/-- Little-endian four-byte encoding of a `u32`, as produced by
`write_u32::<LittleEndian>`; values are reduced modulo 2^32 bytewise. -/
def u32LE (n : Nat) : List Nat :=
  [n % 256, n / 256 % 256, n / 65536 % 256, n / 16777216 % 256]

/-- Reading a little-endian `u32` from the front of a byte stream
(`read_u32::<LittleEndian>`). On a byte list the only possible read error is
`UnexpectedEof` (fewer than four bytes remain), which `ignore_eof` in
src/lib.rs converts to `Ok(None)`; the reader therefore returns an `Option`
directly, `none` standing for that case. -/
def readU32LE : List Nat → Option (Nat × List Nat)
  | b0 :: b1 :: b2 :: b3 :: rest =>
    some (b0 + b1 * 256 + b2 * 65536 + b3 * 16777216, rest)
  | _ => none

/-- One journal record frame as written by `write_buf` inside `Survive::mutate`
(src/lib.rs lines 149-154): the `u32` mutation id, the payload length cast to
`u32` (`buf.len() as u32`, an unchecked reduction modulo 2^32), then every
payload byte. -/
def write_buf (mutation_id : Nat) (buf : List Nat) : List Nat :=
  u32LE mutation_id ++ u32LE (buf.length % 4294967296) ++ buf

/-- Reading one journal frame inside the replay loop of `Survive::load`
(src/lib.rs lines 256-270): the mutation id, the length field, then exactly
`length` payload bytes via `read_exact`. Each of the three reads can hit the
end of the stream, in which case `ignore_eof` yields `None` and the loop
breaks; all three torn-tail breaks are modelled by returning `none`. -/
def readRecord (bytes : List Nat) : Option (Nat × List Nat × List Nat) :=
  match readU32LE bytes with
  | none => none
  | some (mutation_id, r1) =>
    match readU32LE r1 with
    | none => none
    | some (len, r2) =>
      if len ≤ r2.length then some (mutation_id, r2.take len, r2.drop len) else none

theorem readU32LE_some_length {l r : List Nat} {v : Nat}
    (h : readU32LE l = some (v, r)) : l.length = r.length + 4 := by
  match l with
  | [] => simp [readU32LE] at h
  | [_] => simp [readU32LE] at h
  | [_, _] => simp [readU32LE] at h
  | [_, _, _] => simp [readU32LE] at h
  | b0 :: b1 :: b2 :: b3 :: rest =>
    simp only [readU32LE, Option.some.injEq, Prod.mk.injEq] at h
    simp [← h.2]

theorem readRecord_sub {bytes : List Nat} {mutation_id : Nat} {payload rest : List Nat}
    (h : readRecord bytes = some (mutation_id, payload, rest)) :
    rest.length < bytes.length := by
  unfold readRecord at h
  cases h1 : readU32LE bytes with
  | none => rw [h1] at h; simp at h
  | some v1 =>
    obtain ⟨id1, r1⟩ := v1
    simp only [h1] at h
    cases h2 : readU32LE r1 with
    | none => simp [h2] at h
    | some v2 =>
      obtain ⟨len, r2⟩ := v2
      simp only [h2] at h
      split at h
      · simp only [Option.some.injEq, Prod.mk.injEq] at h
        have hb := readU32LE_some_length h1
        have hr := readU32LE_some_length h2
        have : rest = r2.drop len := by rw [← h.2.2]
        rw [this]
        simp only [List.length_drop]
        omega
      · simp at h

/-- The journal replay loop of `Survive::load` (src/lib.rs lines 254-277):
read frames until the stream ends, cleanly or inside a torn trailing frame,
dispatching each complete frame through the mutation registry; an id with no
registered handler aborts the replay with `UnregisteredMutation`, and a
handler failure is propagated. -/
def replay (reg : MutationTypes T) (data : T) (bytes : List Nat) : Except Error T :=
  match hrec : readRecord bytes with
  | none => .ok data
  | some (mutation_id, payload, rest) =>
    match lookupType reg mutation_id with
    | none => .error (.UnregisteredMutation mutation_id)
    | some process =>
      match process payload data with
      | .error e => .error e
      | .ok data' => replay reg data' rest
  termination_by bytes.length
  decreasing_by exact readRecord_sub hrec

/-- The configuration of a store (`struct Options`), set through `Builder`:
the auto-compaction threshold (`None` disables it, `Some(0)` compacts after
every mutation) and the journal write buffering flag. -/
structure Options where
  max_journal_file_length : Option Nat
  use_journal_buffer : Bool
deriving DecidableEq

/-- The persistence directory: the three possible files `state`, `journal` and
`state~`, each `some bytes` exactly when the file exists. -/
structure Dir where
  state : Option (List Nat)
  journal : Option (List Nat)
  transitional : Option (List Nat)
deriving DecidableEq

/-- The live store (`struct Survive<T>`): the owned data, the directory
contents it owns in place of a path, the tracked journal length and the
options. `journalBytes` is the logical content of the journal file together
with any bytes still sitting in the `BufWriter`: the buffer is flushed by
`compact`, by unbuffered writes and on drop, and a crash losing the buffered
tail is covered by quantifying over truncations of the journal. -/
structure Survive (T : Type) where
  data : T
  state : Option (List Nat)
  journalBytes : List Nat
  transitional : Option (List Nat)
  journal_file_length : Nat
  options : Options
deriving DecidableEq

/-- `Survive::get`. -/
def get (s : Survive T) : T := s.data

/-- One `mutate::<M>` call: the registered `u32` id `M::ID`, the outcome of
`serde_cbor::to_vec(&mutation)`, and the in-memory effect `M::mutate` paired
with its declared result `M::Result`. -/
structure MutationCall (T R : Type) where
  ID : Nat
  serBytes : Except Nat (List Nat)
  mutateFn : T → T × R

/-- `Survive::compact` (src/lib.rs lines 188-206). `File::create` makes the
transitional state file and `serde_cbor::to_writer` serializes the data into
it; when serialization fails its error is surfaced with the state file and the
journal untouched (the content the transitional file is left with is taken as
empty, the bytes of a failed buffered write being unspecified). After a fully
successful serialization the state file is removed if present, the journal is
flushed and truncated to zero with the tracked length reset, and the
transitional file is renamed onto the state path. The plain filesystem calls
(`remove_file`, `set_len`, `rename`) are not given failure modes. -/
def compact (c : Codec T) (s : Survive T) : Survive T × Option Error :=
  match c.ser s.data with
  | .error e => ({ s with transitional := some [] }, some (.Cbor e))
  | .ok bytes =>
    ({ s with state := some bytes, transitional := none,
              journalBytes := [], journal_file_length := 0 }, none)

/-- `Survive::mutate` (src/lib.rs lines 148-180). `jwOk` injects the outcome
of the journal write (and of the synchronous flush when buffering is off):
writes to the in-memory journal model cannot themselves fail, so `false`
stands for an underlying I/O failure, after which the bytes that may have
partially reached the file are immediately discarded by the forced compaction
of the error branch. On a successful write the frame is appended, the tracked
length grows by `4 + buf.len()` as in the source, and a configured maximum may
trigger an auto-compaction. Only after all of that is the mutation applied to
the in-memory data and its declared result returned. -/
def mutate (c : Codec T) (m : MutationCall T R) (jwOk : Bool) (s : Survive T) :
    Survive T × Except Error R :=
  match m.serBytes with
  | .error e => (s, .error (.Cbor e))
  | .ok buf =>
    let step : Survive T × Option Error :=
      if jwOk then
        let s1 : Survive T :=
          { s with journalBytes := s.journalBytes ++ write_buf m.ID buf,
                   journal_file_length := s.journal_file_length + (4 + buf.length) }
        match s1.options.max_journal_file_length with
        | some maxLen => if s1.journal_file_length > maxLen then compact c s1 else (s1, none)
        | none => (s1, none)
      else
        compact c s
    match step with
    | (s', some e) => (s', .error e)
    | (s', none) =>
      let dr := m.mutateFn s'.data
      ({ s' with data := dr.1 }, .ok dr.2)

/-- The tail of `Survive::load` after the crash-recovery file fixes
(src/lib.rs lines 252-279): deserialize the state file, then replay the
journal when the journal file exists. `Survivable::state_loaded` has an empty
default body and the specification does not model custom hooks, so the call is
a no-op here. The `none` state branch is unreachable from `load`. -/
def loadState (c : Codec T) (reg : MutationTypes T) (d : Dir) :
    Except Error (Dir × Option T) :=
  match d.state with
  | none => .ok (d, none)
  | some sb =>
    match c.deser sb with
    | .error e => .error (.Cbor e)
    | .ok data =>
      match d.journal with
      | none => .ok (d, some data)
      | some jb =>
        match replay reg data jb with
        | .error e => .error e
        | .ok data' => .ok (d, some data')

/-- `Survive::load` (src/lib.rs lines 225-280): the crash-recovery decision
over the file-existence flags. With the state file absent, an existing journal
file is deleted, and then an existing transitional state file is renamed onto
the state path; with neither of them present there is no prior data and the
caller falls back to the default value. With the state file present, a
leftover transitional state file is deleted and the state file stays
authoritative. The surviving files are then read by `loadState`. Directory
creation (`fs::create_dir_all`) is not modelled. -/
def load (c : Codec T) (reg : MutationTypes T) (d : Dir) :
    Except Error (Dir × Option T) :=
  match d.state with
  | none =>
    match d.transitional with
    | none => .ok (⟨none, none, none⟩, none)
    | some t => loadState c reg ⟨some t, none, none⟩
  | some sb => loadState c reg ⟨some sb, d.journal, none⟩

/-- `Survive::open` (src/lib.rs lines 208-223): recover through `load`, fall
back to the default value (`unwrap_or_else` with `T::default`), open the
journal file in append-create mode — keeping any existing bytes, with the
tracked length starting at zero — and run the unconditional initial
compaction, whose failure fails the open. -/
def openStore (c : Codec T) (reg : MutationTypes T) (opts : Options) (dflt : T)
    (d : Dir) : Except Error (Survive T) :=
  match load c reg d with
  | .error e => .error e
  | .ok (d', od) =>
    let s : Survive T :=
      { data := od.getD dflt, state := d'.state, journalBytes := (d'.journal).getD [],
        transitional := d'.transitional, journal_file_length := 0, options := opts }
    match compact c s with
    | (_, some e) => .error e
    | (s', none) => .ok s'

/-- Dropping the store: the journal `BufWriter` flushes on drop, so the
directory is left with the state file, the journal file holding every byte
written so far, and the transitional file if one exists. -/
def dropStore (s : Survive T) : Dir :=
  ⟨s.state, some s.journalBytes, s.transitional⟩

/-- A session of successive `mutate` calls whose journal writes succeed,
stopping at the first error. -/
def runSession (c : Codec T) : Survive T → List (MutationCall T R) → Except Error (Survive T)
  | s, [] => .ok s
  | s, m :: ms =>
    match mutate c m true s with
    | (s', .ok _) => runSession c s' ms
    | (_, .error e) => .error e

/-- Applying a sequence of mutations directly to a value, with no store. -/
def applySeq (ms : List (MutationCall T R)) (d : T) : T :=
  ms.foldl (fun d m => (m.mutateFn d).1) d

/-- A journal record for stating replay properties: the id and payload bytes
of a written frame together with the in-memory effect of its handler. -/
structure RecSpec (T : Type) where
  id : Nat
  buf : List Nat
  app : T → T

/-- The journal bytes holding the frames of the given records, in order. -/
def frames : List (RecSpec T) → List Nat
  | [] => []
  | r :: rs => write_buf r.id r.buf ++ frames rs

/-- Folding the effects of records over a start value, in file order. -/
def applyRecs (rs : List (RecSpec T)) (d : T) : T :=
  rs.foldl (fun d r => r.app d) d

/-- The records whose whole frames fit inside the first `k` bytes of the
journal: the frame of a record takes `4 + 4 + payload` bytes. -/
def takeWhole : List (RecSpec T) → Nat → List (RecSpec T)
  | [], _ => []
  | r :: rs, k =>
    if 8 + r.buf.length ≤ k then r :: takeWhole rs (k - (8 + r.buf.length)) else []

/-- A record is coherently registered: its id is a `u32` value, its payload
length fits the `u32` length field, and the registry maps the id to a handler
that decodes exactly this payload to exactly this effect. -/
def Coherent (reg : MutationTypes T) (r : RecSpec T) : Prop :=
  r.id < 4294967296 ∧ r.buf.length < 4294967296 ∧
    ∃ f, lookupType reg r.id = some f ∧ ∀ d, f r.buf d = .ok (r.app d)

/-- A concrete data codec on `Nat` for witnesses: `n` serializes to `n` zero
bytes and a byte list deserializes to its length, an exact round trip. -/
def codecN : Codec Nat :=
  ⟨fun n => .ok (List.replicate n 0), fun bs => .ok bs.length⟩

/-- A concrete codec whose serializer fails, with error token 7, exactly on
the value 99. -/
def codecFail : Codec Nat :=
  ⟨fun n => if n = 99 then .error 7 else .ok (List.replicate n 0),
   fun bs => .ok bs.length⟩

/-- A concrete registered handler: payload `[1]` increments the data, any
other payload is a decode error. -/
def incProcess : List Nat → Nat → Except Error Nat :=
  fun buf d => if buf = [1] then .ok (d + 1) else .error (.Cbor 0)

/-- A registry holding only the increment handler under id 1. -/
def regInc : MutationTypes Nat := [(1, incProcess)]

/-- The increment mutation call: id 1, payload `[1]`, adds one. -/
def incMut : MutationCall Nat Unit := ⟨1, .ok [1], fun d => (d + 1, ())⟩

/-- The increment record, as `incMut` appears in a journal. -/
def recInc : RecSpec Nat := ⟨1, [1], fun d => d + 1⟩

/-- A mutation call that fails to serialize with error token 3. -/
def failMut : MutationCall Nat Unit := ⟨1, .error 3, fun d => (d + 1, ())⟩

/-- A handler for a mutation whose payload is 2^32 zero bytes. -/
def bigProcess : List Nat → Nat → Except Error Nat :=
  fun buf d => if buf.length = 4294967296 then .ok (d + 1) else .error (.Cbor 0)

/-- A registry holding only the big-payload handler under id 7. -/
def regBig : MutationTypes Nat := [(7, bigProcess)]

/-- A mutation call whose serialized payload is 2^32 bytes long, id 7. -/
def bigMut : MutationCall Nat Unit := ⟨7, .ok (List.replicate 4294967296 0), fun d => (d + 1, ())⟩

/-- Options with auto-compaction disabled. -/
def optsNoMax : Options := ⟨none, true⟩

/-- Options with `max_journal_file_length = Some(0)`: the builder documents
this as compaction running after every data mutation. -/
def optsMax0 : Options := ⟨some 0, true⟩

/-- A fresh persistence directory. -/
def emptyDir : Dir := ⟨none, none, none⟩

/-- The complete round-trip scenario on `Nat`: open a fresh directory with
default 0, run the mutation sequence, drop the store, reopen the directory and
report the reconstructed data. -/
def sessionData (opts : Options) (ms : List (MutationCall Nat Unit)) : Except Error Nat :=
  (openStore codecN regInc opts 0 emptyDir).bind fun s0 =>
    (runSession codecN s0 ms).bind fun s1 =>
      (openStore codecN regInc opts 0 (dropStore s1)).map fun s2 => s2.data

theorem length_u32LE (n : Nat) : (u32LE n).length = 4 := rfl

theorem length_write_buf (mutation_id : Nat) (buf : List Nat) :
    (write_buf mutation_id buf).length = 8 + buf.length := by
  simp [write_buf, u32LE]
  omega

theorem readU32LE_append (n : Nat) (l : List Nat) :
    readU32LE (u32LE n ++ l) = some (n % 4294967296, l) := by
  simp only [u32LE, List.cons_append, List.nil_append, readU32LE,
    Option.some.injEq, Prod.mk.injEq]
  constructor
  · omega
  · trivial

theorem readU32LE_short {l : List Nat} (h : l.length < 4) : readU32LE l = none := by
  match l with
  | [] => rfl
  | [_] => rfl
  | [_, _] => rfl
  | [_, _, _] => rfl
  | _ :: _ :: _ :: _ :: _ => simp at h; omega

theorem readRecord_none1 {bytes : List Nat} (h : readU32LE bytes = none) :
    readRecord bytes = none := by
  unfold readRecord
  simp [h]

theorem readRecord_none2 {bytes r1 : List Nat} {id1 : Nat}
    (h1 : readU32LE bytes = some (id1, r1)) (h2 : readU32LE r1 = none) :
    readRecord bytes = none := by
  unfold readRecord
  simp [h1, h2]

theorem readRecord_none3 {bytes r1 r2 : List Nat} {id1 len : Nat}
    (h1 : readU32LE bytes = some (id1, r1)) (h2 : readU32LE r1 = some (len, r2))
    (h3 : r2.length < len) : readRecord bytes = none := by
  unfold readRecord
  simp [h1, h2]
  omega

theorem readRecord_frame_general (mutation_id : Nat) (b rest : List Nat) :
    readRecord (write_buf mutation_id b ++ rest) =
      some (mutation_id % 4294967296, (b ++ rest).take (b.length % 4294967296),
            (b ++ rest).drop (b.length % 4294967296)) := by
  unfold readRecord write_buf
  rw [List.append_assoc, List.append_assoc]
  simp only [readU32LE_append]
  have hmm : b.length % 4294967296 % 4294967296 = b.length % 4294967296 :=
    Nat.mod_mod_of_dvd _ dvd_rfl
  rw [hmm]
  have hle : b.length % 4294967296 ≤ (b ++ rest).length := by
    have := Nat.mod_le b.length 4294967296
    simp only [List.length_append]
    omega
  rw [if_pos hle]

theorem readRecord_frame (mutation_id : Nat) {b : List Nat} (rest : List Nat)
    (hid : mutation_id < 4294967296) (hb : b.length < 4294967296) :
    readRecord (write_buf mutation_id b ++ rest) = some (mutation_id, b, rest) := by
  rw [readRecord_frame_general, Nat.mod_eq_of_lt hid, Nat.mod_eq_of_lt hb]
  rw [List.take_left, List.drop_left]

theorem replay_break {bytes : List Nat} (reg : MutationTypes T) (d : T)
    (h : readRecord bytes = none) : replay reg d bytes = .ok d := by
  unfold replay
  split
  · rfl
  · rename_i heq
    rw [h] at heq
    cases heq

theorem replay_nil (reg : MutationTypes T) (d : T) : replay reg d [] = .ok d :=
  replay_break reg d rfl

theorem replay_cons {bytes : List Nat} {mutation_id : Nat} {payload rest : List Nat}
    (reg : MutationTypes T) (d : T)
    (h : readRecord bytes = some (mutation_id, payload, rest)) :
    replay reg d bytes =
      match lookupType reg mutation_id with
      | none => .error (.UnregisteredMutation mutation_id)
      | some process =>
        match process payload d with
        | .error e => .error e
        | .ok d' => replay reg d' rest := by
  conv_lhs => unfold replay
  split
  · rename_i heq
    rw [h] at heq
    cases heq
  · rename_i id' payload' rest' heq
    rw [h] at heq
    cases heq
    rfl

theorem replay_frames (reg : MutationTypes T) (rs : List (RecSpec T))
    (h : ∀ r ∈ rs, Coherent reg r) (d : T) (tail : List Nat) :
    replay reg d (frames rs ++ tail) = replay reg (applyRecs rs d) tail := by
  induction rs generalizing d with
  | nil => simp [frames, applyRecs]
  | cons r rs ih =>
    obtain ⟨hid, hb, f, hf, happ⟩ := h r (by simp)
    rw [frames, List.append_assoc,
      replay_cons reg d (readRecord_frame r.id (frames rs ++ tail) hid hb)]
    simp only [hf, happ]
    exact ih (fun r hr => h r (by simp [hr])) (r.app d)

theorem replay_partial (reg : MutationTypes T) (d : T) (mutation_id : Nat)
    (b : List Nat) (k : Nat) (hb : b.length < 4294967296) (hk : k < 8 + b.length) :
    replay reg d ((write_buf mutation_id b).take k) = .ok d := by
  apply replay_break
  rcases Nat.lt_or_ge k 4 with h4 | h4
  · apply readRecord_none1
    apply readU32LE_short
    simp only [List.length_take, length_write_buf]
    omega
  · have hsplit1 : (write_buf mutation_id b).take k =
        u32LE mutation_id ++ (u32LE (b.length % 4294967296) ++ b).take (k - 4) := by
      unfold write_buf
      rw [List.append_assoc, List.take_append_eq_append_take,
        List.take_of_length_le (by rw [length_u32LE]; exact h4), length_u32LE]
    have hread1 : readU32LE ((write_buf mutation_id b).take k) =
        some (mutation_id % 4294967296,
          (u32LE (b.length % 4294967296) ++ b).take (k - 4)) := by
      rw [hsplit1, readU32LE_append]
    rcases Nat.lt_or_ge k 8 with h8 | h8
    · refine readRecord_none2 hread1 (readU32LE_short ?_)
      simp only [List.length_take, List.length_append, length_u32LE]
      omega
    · have hsplit2 : (u32LE (b.length % 4294967296) ++ b).take (k - 4) =
          u32LE (b.length % 4294967296) ++ b.take (k - 8) := by
        rw [List.take_append_eq_append_take,
          List.take_of_length_le (by rw [length_u32LE]; omega), length_u32LE]
        have h44 : k - 4 - 4 = k - 8 := by omega
        rw [h44]
      have hread2 : readU32LE ((u32LE (b.length % 4294967296) ++ b).take (k - 4)) =
          some (b.length % 4294967296 % 4294967296, b.take (k - 8)) := by
        rw [hsplit2, readU32LE_append]
      refine readRecord_none3 hread1 hread2 ?_
      rw [Nat.mod_mod_of_dvd _ dvd_rfl, Nat.mod_eq_of_lt hb]
      simp only [List.length_take]
      omega

theorem replay_take (reg : MutationTypes T) (rs : List (RecSpec T))
    (h : ∀ r ∈ rs, Coherent reg r) (d : T) (k : Nat) :
    replay reg d ((frames rs).take k) = .ok (applyRecs (takeWhole rs k) d) := by
  induction rs generalizing d k with
  | nil =>
    simp only [frames, List.take_nil, takeWhole, applyRecs, List.foldl_nil]
    exact replay_nil reg d
  | cons r rs ih =>
    obtain ⟨hid, hb, f, hf, happ⟩ := h r (by simp)
    by_cases hfit : 8 + r.buf.length ≤ k
    · have hsplit : (frames (r :: rs)).take k =
          write_buf r.id r.buf ++ (frames rs).take (k - (8 + r.buf.length)) := by
        rw [frames, List.take_append_eq_append_take,
          List.take_of_length_le (by rw [length_write_buf]; omega), length_write_buf]
      rw [hsplit,
        replay_cons reg d (readRecord_frame r.id ((frames rs).take (k - (8 + r.buf.length))) hid hb)]
      simp only [hf, happ]
      rw [ih (fun r hr => h r (by simp [hr])) (r.app d) (k - (8 + r.buf.length))]
      simp [takeWhole, hfit, applyRecs]
    · have hsplit : (frames (r :: rs)).take k = (write_buf r.id r.buf).take k := by
        rw [frames, List.take_append_of_le_length (by rw [length_write_buf]; omega)]
      rw [hsplit, replay_partial reg d r.id r.buf k hb (by omega)]
      simp [takeWhole, hfit, applyRecs]

/-- Claim C5: during `compact`, the existing state file is never deleted
before the serialization of the data to the transitional state file has fully
succeeded. When serialization fails, the failure is surfaced as an error and
the whole store — state file, journal bytes and tracked length included — is
exactly as before, except that the transitional file was created; no delete
and no rename happen. -/
theorem compact_state_safe_on_ser_error (c : Codec T) (s : Survive T) (e : Nat)
    (h : c.ser s.data = .error e) :
    compact c s = ({ s with transitional := some [] }, some (.Cbor e)) := by
  unfold compact
  rw [h]

/-- Witness for C5: a concrete store whose data fails to serialize keeps its
state file and journal through the failing compact. -/
theorem compact_state_safe_on_ser_error_witness :
    compact codecFail ⟨99, some [2], [5], none, 3, optsNoMax⟩ =
      (⟨99, some [2], [5], some [], 3, optsNoMax⟩, some (.Cbor 7)) :=
  compact_state_safe_on_ser_error codecFail ⟨99, some [2], [5], none, 3, optsNoMax⟩ 7 rfl

/-- Claim C10: a `mutate` call whose argument fails to serialize returns the
serialization error with the store fully unchanged: nothing was written to the
journal, the tracked length is untouched and the mutation was not applied. -/
theorem mutate_ser_error_no_change (c : Codec T) (m : MutationCall T R)
    (jwOk : Bool) (s : Survive T) (e : Nat) (h : m.serBytes = .error e) :
    mutate c m jwOk s = (s, .error (.Cbor e)) := by
  unfold mutate
  rw [h]

/-- Witness for C10: a concrete mutation that fails to serialize leaves a
concrete store unchanged. -/
theorem mutate_ser_error_no_change_witness :
    mutate codecN failMut true ⟨4, some [], [], none, 0, optsNoMax⟩ =
      (⟨4, some [], [], none, 0, optsNoMax⟩, .error (.Cbor 3)) :=
  mutate_ser_error_no_change codecN failMut true ⟨4, some [], [], none, 0, optsNoMax⟩ 3 rfl

/-- Claim C2, the divergence evaluated on the embedded code: a successful
`mutate` of a one-byte payload that triggers no compaction grows the tracked
`journal_file_length` by 5 (`4 + buf.len()` in the source), while the record
it wrote to the journal file is 9 bytes long (id field, length field and
payload); the tracked length does not increase by the record's byte size. -/
theorem mutate_tracked_length_undercounts :
    (mutate codecN incMut true ⟨0, some [], [], none, 0, optsNoMax⟩).1.journal_file_length = 5 ∧
    (mutate codecN incMut true ⟨0, some [], [], none, 0, optsNoMax⟩).1.journalBytes.length = 9 :=
  ⟨rfl, rfl⟩

/-- Claim C4: the recovery decision table of `load`. With the state file
absent and no transitional file, any journal file is deleted and no prior data
is reported, so `open` falls back to the default value and compacts it into a
fresh snapshot. With the state file absent and a transitional file present,
the journal is deleted and the transitional file is promoted onto the state
path before reading. With the state file present, a transitional file is
deleted and the state file remains the one that is read. -/
theorem load_recovery (c : Codec T) (reg : MutationTypes T) (d : Dir) :
    (d.state = none → d.transitional = none →
      load c reg d = .ok (⟨none, none, none⟩, none)) ∧
    (∀ t, d.state = none → d.transitional = some t →
      load c reg d = load c reg ⟨some t, none, none⟩) ∧
    (∀ sb, d.state = some sb →
      load c reg d = load c reg ⟨some sb, d.journal, none⟩) ∧
    (∀ opts dflt bs, d.state = none → d.transitional = none → c.ser dflt = .ok bs →
      openStore c reg opts dflt d = .ok ⟨dflt, some bs, [], none, 0, opts⟩) := by
  obtain ⟨st, j, tr⟩ := d
  refine ⟨?_, ?_, ?_, ?_⟩
  · intro h1 h2
    simp only at h1 h2
    subst h1; subst h2
    rfl
  · intro t h1 h2
    simp only at h1 h2
    subst h1; subst h2
    rfl
  · intro sb h1
    simp only at h1
    subst h1
    rfl
  · intro opts dflt bs h1 h2 hser
    simp only at h1 h2
    subst h1; subst h2
    unfold openStore load
    simp only
    unfold compact
    simp only [Option.getD]
    rw [hser]

/-- Witness for C4: a directory holding only a journal file is reset to the
fresh empty directory by `load`, with no prior data reported. -/
theorem load_recovery_witness :
    load codecN regInc ⟨none, some [9, 9], none⟩ = .ok (⟨none, none, none⟩, none) :=
  (load_recovery codecN regInc ⟨none, some [9, 9], none⟩).1 rfl rfl

/-- Claim C9: for a mutation whose serialized payload is at least 2^32 bytes,
`mutate` (with the journal write succeeding and auto-compaction disabled so
the journal survives the call) appends a frame whose length field is the
payload length reduced modulo 2^32 — the unchecked `as u32` cast — while every
payload byte is still written, so the declared length disagrees with the
actual payload; the call still returns the mutation's declared result rather
than an error. -/
theorem mutate_wraps_length_field (c : Codec T) (m : MutationCall T R)
    (s : Survive T) (buf : List Nat) (hm : m.serBytes = .ok buf)
    (hbig : 4294967296 ≤ buf.length)
    (hmax : s.options.max_journal_file_length = none) :
    (mutate c m true s).1.journalBytes =
      s.journalBytes ++ (u32LE m.ID ++ u32LE (buf.length % 4294967296) ++ buf) ∧
    (mutate c m true s).2 = .ok (m.mutateFn s.data).2 ∧
    buf.length % 4294967296 ≠ buf.length := by
  unfold mutate
  simp only [hm, if_true, hmax, write_buf]
  refine ⟨trivial, trivial, ?_⟩
  omega

/-- Witness for C9 at the 2^32-byte payload mutation `bigMut`. -/
theorem mutate_wraps_length_field_witness :
    (mutate codecN bigMut true ⟨0, none, [], none, 0, optsNoMax⟩).1.journalBytes =
      [] ++ (u32LE bigMut.ID ++
        u32LE ((List.replicate 4294967296 0).length % 4294967296) ++
        List.replicate 4294967296 0) ∧
    (mutate codecN bigMut true ⟨0, none, [], none, 0, optsNoMax⟩).2 =
      .ok (bigMut.mutateFn 0).2 ∧
    (List.replicate 4294967296 0).length % 4294967296 ≠
      (List.replicate 4294967296 0).length :=
  mutate_wraps_length_field codecN bigMut ⟨0, none, [], none, 0, optsNoMax⟩
    (List.replicate 4294967296 0) rfl (by rw [List.length_replicate]) rfl

/-- Claim C6 counterexample: with the journal write failing and the forced
compaction itself failing (the data does not serialize), `mutate` returns the
compaction error and the mutation is not applied to the in-memory data — the
result is not returned, so the outcome is not independent of the journal
write's failure handling. -/
theorem mutate_refuses_mutation_when_forced_compaction_fails :
    (mutate codecFail incMut false
      ⟨99, some (List.replicate 99 0), [], none, 0, optsNoMax⟩).2 = .error (.Cbor 7) ∧
    (mutate codecFail incMut false
      ⟨99, some (List.replicate 99 0), [], none, 0, optsNoMax⟩).1.data = 99 ∧
    incMut.mutateFn 99 = (100, ()) :=
  ⟨rfl, rfl, rfl⟩

/-- Claim C6 (amended): for every `mutate` call whose argument serializes
successfully and whose data serializes (so any compaction the call runs
succeeds), the mutation is applied to the in-memory data and its declared
result is returned for both outcomes of the journal write; a journal write
failure triggers a forced compaction instead of rolling back or refusing the
mutation. -/
theorem mutate_applies_when_compaction_ok (c : Codec T) (m : MutationCall T R)
    (s : Survive T) (buf bs : List Nat) (jwOk : Bool)
    (hm : m.serBytes = .ok buf) (hs : c.ser s.data = .ok bs) :
    (mutate c m jwOk s).2 = .ok (m.mutateFn s.data).2 ∧
    (mutate c m jwOk s).1.data = (m.mutateFn s.data).1 ∧
    (jwOk = false → (mutate c m jwOk s).1.journalBytes = [] ∧
      (mutate c m jwOk s).1.state = some bs) := by
  unfold mutate
  simp only [hm]
  cases jwOk with
  | false =>
    simp only [Bool.false_eq_true, if_false]
    unfold compact
    simp [hs]
  | true =>
    simp only [if_true]
    refine ⟨?_, ?_, fun h => by cases h⟩ <;>
    · cases hmax : s.options.max_journal_file_length with
      | none => simp [hmax]
      | some maxLen =>
        simp only [hmax]
        by_cases hgt : s.journal_file_length + (4 + buf.length) > maxLen
        · simp only [hgt, if_true]
          unfold compact
          simp [hs]
        · simp [hgt]

/-- Witness for C6's amended theorem: a concrete failed journal write whose
forced compaction succeeds still applies the increment and returns its
result. -/
theorem mutate_applies_when_compaction_ok_witness :
    (mutate codecN incMut false ⟨5, none, [], none, 0, optsMax0⟩).2 =
      .ok (incMut.mutateFn 5).2 ∧
    (mutate codecN incMut false ⟨5, none, [], none, 0, optsMax0⟩).1.data =
      (incMut.mutateFn 5).1 ∧
    (false = false → (mutate codecN incMut false ⟨5, none, [], none, 0, optsMax0⟩).1.journalBytes = [] ∧
      (mutate codecN incMut false ⟨5, none, [], none, 0, optsMax0⟩).1.state =
        some (List.replicate 5 0)) :=
  mutate_applies_when_compaction_ok codecN incMut ⟨5, none, [], none, 0, optsMax0⟩
    [1] (List.replicate 5 0) false rfl rfl

/-- Claim C8: every successful `open` runs the unconditional initial
compaction, so it returns a store whose journal file is empty with tracked
length zero, no transitional file remains, and the state file holds a fresh
snapshot that deserializes back to the reconstructed in-memory data (given
that the codec round-trips). -/
theorem open_compacted_invariant (c : Codec T) (reg : MutationTypes T)
    (opts : Options) (dflt : T) (d : Dir) (s : Survive T)
    (hrt : ∀ t bs, c.ser t = .ok bs → c.deser bs = .ok t)
    (h : openStore c reg opts dflt d = .ok s) :
    s.journalBytes = [] ∧ s.journal_file_length = 0 ∧ s.transitional = none ∧
      ∃ bs, s.state = some bs ∧ c.ser s.data = .ok bs ∧ c.deser bs = .ok s.data := by
  unfold openStore at h
  cases hl : load c reg d with
  | error e => rw [hl] at h; cases h
  | ok p =>
    obtain ⟨d', od⟩ := p
    rw [hl] at h
    simp only at h
    cases hser : c.ser (od.getD dflt) with
    | error e =>
      unfold compact at h
      simp only [hser] at h
      cases h
    | ok bs =>
      unfold compact at h
      simp only [hser] at h
      cases h
      exact ⟨rfl, rfl, rfl, bs, rfl, hser, hrt _ _ hser⟩

/-- Witness for C8: opening a fresh directory with the round-tripping codec
yields the compacted store with the empty journal and matching snapshot. -/
theorem open_compacted_invariant_witness :
    (⟨0, some [], [], none, 0, optsNoMax⟩ : Survive Nat).journalBytes = [] ∧
    (⟨0, some [], [], none, 0, optsNoMax⟩ : Survive Nat).journal_file_length = 0 ∧
    (⟨0, some [], [], none, 0, optsNoMax⟩ : Survive Nat).transitional = none ∧
      ∃ bs, (⟨0, some [], [], none, 0, optsNoMax⟩ : Survive Nat).state = some bs ∧
        codecN.ser 0 = .ok bs ∧ codecN.deser bs = .ok 0 :=
  open_compacted_invariant codecN regInc optsNoMax 0 emptyDir
    ⟨0, some [], [], none, 0, optsNoMax⟩
    (by
      intro t bs h
      simp only [codecN, Except.ok.injEq] at h
      subst h
      simp [codecN])
    rfl

/-- Claim C7: a journal containing a record whose type id has no handler in
the current registry makes both `load` and `open` fail with the
unregistered-mutation error carrying that id — the record is never silently
skipped. The records before it are coherently registered so that replay
reaches the offending record. -/
theorem open_unregistered_error (c : Codec T) (reg : MutationTypes T)
    (rs : List (RecSpec T)) (bid : Nat) (bbuf rest sb : List Nat) (d0 : T)
    (tr : Option (List Nat)) (opts : Options) (dflt : T)
    (hrs : ∀ r ∈ rs, Coherent reg r) (hsb : c.deser sb = .ok d0)
    (hbid : bid < 4294967296) (hlook : lookupType reg bid = none) :
    load c reg ⟨some sb, some (frames rs ++ write_buf bid bbuf ++ rest), tr⟩ =
      .error (.UnregisteredMutation bid) ∧
    openStore c reg opts dflt
        ⟨some sb, some (frames rs ++ write_buf bid bbuf ++ rest), tr⟩ =
      .error (.UnregisteredMutation bid) := by
  have hfr := readRecord_frame_general bid bbuf rest
  rw [Nat.mod_eq_of_lt hbid] at hfr
  have hrep : replay reg d0 (frames rs ++ write_buf bid bbuf ++ rest) =
      .error (.UnregisteredMutation bid) := by
    rw [List.append_assoc, replay_frames reg rs hrs d0 (write_buf bid bbuf ++ rest),
      replay_cons reg (applyRecs rs d0) hfr, hlook]
  have hload : load c reg ⟨some sb, some (frames rs ++ write_buf bid bbuf ++ rest), tr⟩ =
      .error (.UnregisteredMutation bid) := by
    unfold load loadState
    simp only [hsb, hrep]
  refine ⟨hload, ?_⟩
  unfold openStore
  rw [hload]

/-- Witness for C7: a one-record journal whose id 2 is not in the registry
that only knows id 1 fails the load and the open with that id. -/
theorem open_unregistered_error_witness :
    load codecN regInc
        ⟨some [], some (frames ([] : List (RecSpec Nat)) ++ write_buf 2 [] ++ []), none⟩ =
      .error (.UnregisteredMutation 2) ∧
    openStore codecN regInc optsNoMax 0
        ⟨some [], some (frames ([] : List (RecSpec Nat)) ++ write_buf 2 [] ++ []), none⟩ =
      .error (.UnregisteredMutation 2) :=
  open_unregistered_error codecN regInc [] 2 [] [] [] 0 none optsNoMax 0
    (by intro r hr; cases hr) rfl (by omega) rfl

/-- Claim C3 (amended): for every journal consisting of whole records that are
coherently registered — in particular every payload is shorter than 2^32
bytes, as the u32 length field requires — truncating the journal file to any
byte offset and reloading never produces an error, never applies a torn
trailing record, and applies exactly the whole records that precede the
truncation point, in file order; reopening then compacts that replayed data
into a fresh snapshot. -/
theorem load_truncated_journal (c : Codec T) (reg : MutationTypes T)
    (rs : List (RecSpec T)) (sb : List Nat) (d0 : T) (k : Nat)
    (hrs : ∀ r ∈ rs, Coherent reg r) (hsb : c.deser sb = .ok d0) :
    load c reg ⟨some sb, some ((frames rs).take k), none⟩ =
      .ok (⟨some sb, some ((frames rs).take k), none⟩,
        some (applyRecs (takeWhole rs k) d0)) ∧
    (∀ opts dflt bs, c.ser (applyRecs (takeWhole rs k) d0) = .ok bs →
      openStore c reg opts dflt ⟨some sb, some ((frames rs).take k), none⟩ =
        .ok ⟨applyRecs (takeWhole rs k) d0, some bs, [], none, 0, opts⟩) := by
  have hload : load c reg ⟨some sb, some ((frames rs).take k), none⟩ =
      .ok (⟨some sb, some ((frames rs).take k), none⟩,
        some (applyRecs (takeWhole rs k) d0)) := by
    unfold load loadState
    simp only [hsb, replay_take reg rs hrs d0 k]
  refine ⟨hload, ?_⟩
  intro opts dflt bs hser
  unfold openStore
  rw [hload]
  simp only [Option.getD]
  unfold compact
  simp only [hser]

/-- Witness for C3's amended theorem: one whole 9-byte increment record,
truncated at offset 5, is treated as absent: the load succeeds and reports the
snapshot value with no record applied. -/
theorem load_truncated_journal_witness :
    load codecN regInc ⟨some [], some ((frames [recInc]).take 5), none⟩ =
      .ok (⟨some [], some ((frames [recInc]).take 5), none⟩,
        some (applyRecs (takeWhole [recInc] 5) 0)) :=
  (load_truncated_journal codecN regInc [recInc] [] 0 5
    (by
      intro r hr
      simp only [List.mem_singleton] at hr
      subst hr
      exact ⟨by simp [recInc], by simp [recInc], incProcess, rfl,
        fun d => by simp [incProcess, recInc]⟩)
    rfl).1

theorem except_bind_ok {α β ε : Type} (a : α) (f : α → Except ε β) :
    (Except.ok a).bind f = f a := rfl

theorem except_map_ok {α β ε : Type} (a : α) (f : α → β) :
    (Except.map f (Except.ok a) : Except ε β) = .ok (f a) := rfl

theorem mutate_true_nomax (c : Codec T) (m : MutationCall T R) (s : Survive T)
    (buf : List Nat) (hm : m.serBytes = .ok buf)
    (hmax : s.options.max_journal_file_length = none) :
    mutate c m true s =
      ({ s with journalBytes := s.journalBytes ++ write_buf m.ID buf,
                journal_file_length := s.journal_file_length + (4 + buf.length),
                data := (m.mutateFn s.data).1 },
       .ok (m.mutateFn s.data).2) := by
  unfold mutate
  simp only [hm, if_true, hmax]

/-- Claim C3 counterexample: `mutate` (auto-compaction disabled) writes the
2^32-byte-payload record as a frame whose length field wrapped to zero, and
truncating that journal to byte offset 8 makes the reload fail with an error —
the id and zero length fields form a complete frame whose empty payload the
registered handler rejects — contradicting the claim that truncation at any
offset never produces an error. -/
theorem load_error_on_truncated_big_record :
    (mutate codecN bigMut true ⟨0, some [], [], none, 0, optsNoMax⟩).1.journalBytes =
      write_buf 7 (List.replicate 4294967296 0) ∧
    load codecN regBig
        ⟨some [], some ((write_buf 7 (List.replicate 4294967296 0)).take 8), none⟩ =
      .error (.Cbor 0) := by
  constructor
  · rw [mutate_true_nomax codecN bigMut ⟨0, some [], [], none, 0, optsNoMax⟩
      (List.replicate 4294967296 0) rfl rfl]
    exact List.nil_append _
  · have htake : (write_buf 7 (List.replicate 4294967296 0)).take 8 =
        [7, 0, 0, 0, 0, 0, 0, 0] := by
      unfold write_buf
      rw [List.length_replicate, Nat.mod_self,
        List.take_append_of_le_length (by rw [List.length_append]; rfl)]
      rfl
    rw [htake]
    have hrec : readRecord [7, 0, 0, 0, 0, 0, 0, 0] = some (7, [], []) := rfl
    have hrep : replay regBig 0 [7, 0, 0, 0, 0, 0, 0, 0] = .error (.Cbor 0) := by
      rw [replay_cons regBig 0 hrec]
      rfl
    unfold load loadState
    simp only [codecN, List.length_nil, hrep]

/-- Claim C1, the divergence evaluated on the embedded code: with
`max_journal_file_length = Some(0)` — documented by the builder as compaction
running after every data mutation — opening a fresh directory with default 0,
applying the registered increment mutation through `mutate`, dropping the
store and reopening the directory yields 0, while applying the same sequence
directly to the default value yields 1. The auto-compaction inside `mutate`
snapshots the data before the current mutation is applied and truncates the
journal that already holds that mutation's record, so the mutation survives
only in memory and is lost by the reopen. -/
theorem roundtrip_loses_last_mutation_on_auto_compaction :
    sessionData optsMax0 [incMut] = .ok 0 ∧ applySeq [incMut] 0 = 1 := by
  have h0 : openStore codecN regInc optsMax0 0 emptyDir =
      .ok ⟨0, some [], [], none, 0, optsMax0⟩ := rfl
  have h1 : mutate codecN incMut true ⟨0, some [], [], none, 0, optsMax0⟩ =
      (⟨1, some [], [], none, 0, optsMax0⟩, .ok ()) := rfl
  have h2 : runSession codecN (⟨0, some [], [], none, 0, optsMax0⟩ : Survive Nat)
      [incMut] = .ok ⟨1, some [], [], none, 0, optsMax0⟩ := by
    unfold runSession
    rw [h1]
    rfl
  have hload : load codecN regInc ⟨some [], some [], none⟩ =
      .ok (⟨some [], some [], none⟩, some 0) := by
    unfold load loadState
    simp only [codecN, List.length_nil, replay_nil]
  have h3 : openStore codecN regInc optsMax0 0 ⟨some [], some [], none⟩ =
      .ok ⟨0, some [], [], none, 0, optsMax0⟩ := by
    unfold openStore
    rw [hload]
    rfl
  have hdrop : dropStore (⟨1, some [], [], none, 0, optsMax0⟩ : Survive Nat) =
      ⟨some [], some [], none⟩ := rfl
  constructor
  · simp only [sessionData, h0, except_bind_ok, h2, hdrop, h3, except_map_ok]
  · rfl

end SurviveModel
